import Mathlib

/-!
Verification of the filtering-and-aggregation pipeline of the games-market
dashboard (`src/Data_Analyst_Analytics_company.py`).

The pipeline works on one tabular dataset.  A row carries a release year,
a genre, a content rating, a platform, a critic score and a user score.
In the source the table is a pandas DataFrame, so any field may be missing
(NaN); we embed a row as a structure of `Option` fields.  The user-score
column of the raw CSV is a string column holding either a number, the
sentinel `'tbd'`, or NaN; we embed it as a dedicated inductive type.
Numeric score values are never computed with (they are only tested for
presence and carried through), so we represent them by `Int`.
-/

namespace GamesDashboard

/-- Raw user-score cell: missing (NaN), the sentinel string `'tbd'`, or a
numeric value. -/
inductive UserScore where
  | missing : UserScore
  | tbd : UserScore
  | val : Int → UserScore
deriving DecidableEq, Repr

/-- One row of the games table.  Fields are `Option`s because raw pandas
rows may hold NaN in any column. -/
structure Record where
  year : Option Int
  genre : Option String
  rating : Option String
  platform : Option String
  criticScore : Option Int
  userScore : UserScore
deriving DecidableEq, Repr

/-- `dataframe.query('Year_of_Release >= threshold')`: a NaN year compares
as False and the row is dropped. -/
def yearPass (threshold : Int) (r : Record) : Bool :=
  match r.year with
  | some y => decide (threshold ≤ y)
  | none => false

/-- `replace('tbd', np.nan)` on the user-score column. -/
def replaceTbd : UserScore → UserScore
  | UserScore.tbd => UserScore.missing
  | u => u

/-- Does the record still hold a missing value in some field?
(`dropna` drops exactly these rows.) -/
def hasNA (r : Record) : Bool :=
  r.year.isNone || r.genre.isNone || r.rating.isNone || r.platform.isNone ||
  r.criticScore.isNone ||
  (match r.userScore with
   | UserScore.missing => true
   | _ => false)

/-- `clean_data(dataframe, threshold)` from the source:
1. keep rows with `Year_of_Release >= threshold` (NaN years drop out);
2. replace the `'tbd'` user-score sentinel by NaN (the numeric coercion
   `astype(float)` and the year coercion `astype(int)` are identities in
   this embedding, where numeric cells are already numbers);
3. `dropna()`: drop every row that still has a missing field. -/
def clean_data (table : List Record) (threshold : Int) : List Record :=
  ((table.filter (yearPass threshold)).map
    (fun r => { r with userScore := replaceTbd r.userScore })).filter
    (fun r => !hasNA r)

/-- `series.isin(xs)`: NaN is never a member. -/
def isin (v : Option String) (xs : List String) : Bool :=
  match v with
  | some s => xs.contains s
  | none => false

/-- `series.between(lo, hi)`: inclusive on both ends, False on NaN. -/
def between (v : Option Int) (lo hi : Int) : Bool :=
  match v with
  | some y => decide (lo ≤ y) && decide (y ≤ hi)
  | none => false

/-- The `filtered_df` expression shared by the three callbacks:
`df_cleaned[df_cleaned['Genre'].isin(genres) & df_cleaned['Rating'].isin(ratings)
& df_cleaned['Year_of_Release'].between(year_range[0], year_range[1])]`. -/
def filtered_df (table : List Record) (genres ratings : List String)
    (lo hi : Int) : List Record :=
  table.filter (fun r =>
    isin r.genre genres && isin r.rating ratings && between r.year lo hi)

/-- `game_count = len(filtered_df)` from `update_game_count_text`. -/
def game_count (s : List Record) : Nat :=
  s.length

/-- The (year, platform) group key of a row; pandas `groupby` silently
drops rows whose key holds a NaN. -/
def keyOf? (r : Record) : Option (Int × String) :=
  match r.year, r.platform with
  | some y, some p => some (y, p)
  | _, _ => none

/-- The sequence of group keys of a subset, in row order. -/
def groupKeys (s : List Record) : List (Int × String) :=
  s.filterMap keyOf?

/-- Code-point lexicographic comparison of character lists — how Python
(and hence pandas) compares the platform strings when sorting group keys. -/
def charListLe : List Char → List Char → Bool
  | [], _ => true
  | _ :: _, [] => false
  | c1 :: t1, c2 :: t2 =>
    if c1 < c2 then true else if c2 < c1 then false else charListLe t1 t2

/-- Lexicographic comparison of strings by code points. -/
def strLe (a b : String) : Bool :=
  charListLe a.data b.data

/-- Lexicographic order on group keys: ascending year, then ascending
platform string — the order pandas `groupby(sort=True)` emits groups in. -/
def KeyLE (a b : Int × String) : Prop :=
  a.1 < b.1 ∨ (a.1 = b.1 ∧ strLe a.2 b.2 = true)

instance : DecidableRel KeyLE := fun a b => by
  unfold KeyLE
  exact inferInstance

/-- `filtered_df.groupby(['Year_of_Release', 'Platform']).size()
.reset_index(name='Number_of_Games')` from `update_game_release_area_plot`:
one entry per distinct (year, platform) key, keys sorted ascending, value
the number of rows in the group. -/
def grouped_df (s : List Record) : List ((Int × String) × Nat) :=
  (List.insertionSort KeyLE (groupKeys s).dedup).map
    (fun k => (k, (groupKeys s).count k))

/-! ### Characterisations of the row-level predicates -/

lemma isin_iff (v : Option String) (xs : List String) :
    isin v xs = true ↔ ∃ s, v = some s ∧ s ∈ xs := by
  cases v with
  | none => simp [isin]
  | some s => simp [isin]

lemma between_iff (v : Option Int) (lo hi : Int) :
    between v lo hi = true ↔ ∃ y, v = some y ∧ lo ≤ y ∧ y ≤ hi := by
  cases v with
  | none => simp [between]
  | some y => simp [between]

lemma yearPass_iff (th : Int) (r : Record) :
    yearPass th r = true ↔ ∃ y, r.year = some y ∧ th ≤ y := by
  unfold yearPass
  cases r.year with
  | none => simp
  | some y => simp

lemma replaceTbd_replaceTbd (u : UserScore) :
    replaceTbd (replaceTbd u) = replaceTbd u := by
  cases u <;> rfl

/-- Membership in the cleaned table forces the three cleaning invariants. -/
lemma mem_clean_data {t : List Record} {th : Int} {r : Record}
    (h : r ∈ clean_data t th) :
    yearPass th r = true ∧ hasNA r = false ∧ replaceTbd r.userScore = r.userScore := by
  unfold clean_data at h
  rcases List.mem_filter.mp h with ⟨hmap, hna⟩
  rcases List.mem_map.mp hmap with ⟨r', hr', hre⟩
  rcases List.mem_filter.mp hr' with ⟨_, hyp⟩
  refine ⟨?_, ?_, ?_⟩
  · have : r.year = r'.year := by rw [← hre]
    rw [yearPass_iff] at hyp ⊢
    rw [this]
    exact hyp
  · cases hb : hasNA r with
    | false => rfl
    | true => rw [hb] at hna; exact absurd hna (by decide)
  · have : r.userScore = replaceTbd r'.userScore := by rw [← hre]
    rw [this, replaceTbd_replaceTbd]

/-- A record of the cleaned table has every field present, a year at or
above the threshold, and a numeric user score. -/
lemma clean_data_fields {t : List Record} {th : Int} {r : Record}
    (h : r ∈ clean_data t th) :
    (∃ y, r.year = some y ∧ th ≤ y) ∧ (∃ g, r.genre = some g) ∧
    (∃ a, r.rating = some a) ∧ (∃ p, r.platform = some p) ∧
    (∃ c, r.criticScore = some c) ∧ (∃ u, r.userScore = UserScore.val u) := by
  rcases mem_clean_data h with ⟨hy, hna, hu⟩
  rw [yearPass_iff] at hy
  unfold hasNA at hna
  simp only [Bool.or_eq_false_iff, Option.isNone_eq_false_iff] at hna
  rcases hna with ⟨⟨⟨⟨⟨-, hg⟩, ha⟩, hp⟩, hc⟩, hm⟩
  refine ⟨hy, Option.isSome_iff_exists.mp hg, Option.isSome_iff_exists.mp ha,
    Option.isSome_iff_exists.mp hp, Option.isSome_iff_exists.mp hc, ?_⟩
  cases hus : r.userScore with
  | missing => rw [hus] at hm; exact absurd hm (by decide)
  | tbd => rw [hus] at hu; exact absurd hu (by decide)
  | val u => exact ⟨u, rfl⟩

/-! ### The key order is a total preorder -/

lemma charListLe_cons_iff (c1 c2 : Char) (t1 t2 : List Char) :
    charListLe (c1 :: t1) (c2 :: t2) = true ↔
      c1 < c2 ∨ (c1 = c2 ∧ charListLe t1 t2 = true) := by
  simp only [charListLe]
  rcases lt_trichotomy c1 c2 with h | h | h
  · simp [h]
  · simp [h, lt_irrefl]
  · simp [not_lt_of_gt h, h, (ne_of_gt h)]

lemma charListLe_total : ∀ a b : List Char,
    charListLe a b = true ∨ charListLe b a = true
  | [], _ => Or.inl rfl
  | _ :: _, [] => Or.inr rfl
  | c1 :: t1, c2 :: t2 => by
    rw [charListLe_cons_iff, charListLe_cons_iff]
    rcases lt_trichotomy c1 c2 with h | h | h
    · exact Or.inl (Or.inl h)
    · rcases charListLe_total t1 t2 with ih | ih
      · exact Or.inl (Or.inr ⟨h, ih⟩)
      · exact Or.inr (Or.inr ⟨h.symm, ih⟩)
    · exact Or.inr (Or.inl h)

lemma charListLe_trans : ∀ a b c : List Char,
    charListLe a b = true → charListLe b c = true → charListLe a c = true
  | [], _, _, _, _ => rfl
  | _ :: _, [], _, h1, _ => by exact absurd h1 (by simp [charListLe])
  | _ :: _, _ :: _, [], _, h2 => by exact absurd h2 (by simp [charListLe])
  | a1 :: t1, b1 :: t2, c1 :: t3, h1, h2 => by
    rw [charListLe_cons_iff] at h1 h2 ⊢
    rcases h1 with h1 | ⟨e1, r1⟩
    · rcases h2 with h2 | ⟨e2, _⟩
      · exact Or.inl (lt_trans h1 h2)
      · exact Or.inl (e2 ▸ h1)
    · rcases h2 with h2 | ⟨e2, r2⟩
      · exact Or.inl (e1 ▸ h2)
      · exact Or.inr ⟨e1.trans e2, charListLe_trans t1 t2 t3 r1 r2⟩

lemma strLe_total (a b : String) : strLe a b = true ∨ strLe b a = true :=
  charListLe_total a.data b.data

lemma strLe_trans {a b c : String} (h1 : strLe a b = true)
    (h2 : strLe b c = true) : strLe a c = true :=
  charListLe_trans a.data b.data c.data h1 h2

instance : IsTrans (Int × String) KeyLE := by
  constructor
  rintro a b c (h1 | ⟨e1, s1⟩) (h2 | ⟨e2, s2⟩)
  · exact Or.inl (lt_trans h1 h2)
  · exact Or.inl (lt_of_lt_of_eq h1 e2)
  · exact Or.inl (lt_of_eq_of_lt e1 h2)
  · exact Or.inr ⟨e1.trans e2, strLe_trans s1 s2⟩

instance : IsTotal (Int × String) KeyLE := by
  constructor
  intro a b
  rcases lt_trichotomy a.1 b.1 with h | h | h
  · exact Or.inl (Or.inl h)
  · rcases strLe_total a.2 b.2 with hs | hs
    · exact Or.inl (Or.inr ⟨h, hs⟩)
    · exact Or.inr (Or.inr ⟨h.symm, hs⟩)
  · exact Or.inr (Or.inl h)

/-! ### Grouping lemmas -/

lemma keyOf?_eq_some {r : Record} {k : Int × String}
    (h : keyOf? r = some k) : r.year = some k.1 ∧ r.platform = some k.2 := by
  unfold keyOf? at h
  cases hy : r.year with
  | none => rw [hy] at h; exact absurd h (by simp)
  | some y =>
    cases hp : r.platform with
    | none => rw [hy, hp] at h; exact absurd h (by simp)
    | some p =>
      rw [hy, hp] at h
      cases h
      exact ⟨rfl, rfl⟩

lemma length_groupKeys (s : List Record)
    (h : ∀ r ∈ s, (keyOf? r).isSome) :
    (groupKeys s).length = s.length := by
  unfold groupKeys
  induction s with
  | nil => rfl
  | cons a t ih =>
    rcases Option.isSome_iff_exists.mp (h a (by simp)) with ⟨k, hk⟩
    rw [List.filterMap_cons_some hk, List.length_cons, List.length_cons,
      ih (fun r hr => h r (by simp [hr]))]

lemma count_key_eq (k : Int × String) (l : List (Int × String)) :
    l.count k = @List.count (Int × String) instBEqOfDecidableEq k l := by
  unfold List.count
  apply List.countP_congr
  intro a _
  have : (a == k) = decide (a = k) := by
    by_cases hak : a = k
    · subst hak; simp
    · simp [hak]
  rw [this]
  exact Iff.rfl

lemma grouped_df_counts_sum (s : List Record) :
    ((grouped_df s).map (fun g => g.2)).sum = (groupKeys s).length := by
  unfold grouped_df
  rw [List.map_map]
  have hperm :
      List.Perm
        ((List.insertionSort KeyLE (groupKeys s).dedup).map
          (fun k => (groupKeys s).count k))
        ((groupKeys s).dedup.map (fun k => (groupKeys s).count k)) :=
    (List.perm_insertionSort KeyLE (groupKeys s).dedup).map _
  have hsum := hperm.sum_eq
  calc ((List.insertionSort KeyLE (groupKeys s).dedup).map
          ((fun g => g.2) ∘ fun k => (k, (groupKeys s).count k))).sum
      = ((List.insertionSort KeyLE (groupKeys s).dedup).map
          (fun k => (groupKeys s).count k)).sum := rfl
    _ = ((groupKeys s).dedup.map (fun k => (groupKeys s).count k)).sum := hsum
    _ = ((groupKeys s).dedup.map
          (fun k => @List.count (Int × String) instBEqOfDecidableEq k
            (groupKeys s))).sum := by
        rw [List.map_congr_left (fun k _ => count_key_eq k (groupKeys s))]
    _ = (groupKeys s).length := List.sum_map_count_dedup_eq_length _

lemma mem_grouped_df {s : List Record} {k : Int × String} {c : Nat}
    (h : (k, c) ∈ grouped_df s) :
    k ∈ groupKeys s ∧ c = (groupKeys s).count k := by
  unfold grouped_df at h
  rcases List.mem_map.mp h with ⟨k', hk', he⟩
  injection he with he1 he2
  subst he1
  subst he2
  have hdk : k' ∈ (groupKeys s).dedup :=
    (List.perm_insertionSort KeyLE (groupKeys s).dedup).mem_iff.mp hk'
  exact ⟨List.mem_dedup.mp hdk, rfl⟩

lemma isin_nil (v : Option String) : isin v [] = false := by
  cases v <;> rfl

/-- A concrete fully-populated row used to instantiate the hypotheses of
the claim theorems. -/
def sampleRecord : Record :=
  ⟨some 2005, some "Action", some "E", some "PS2", some 80, UserScore.val 8⟩

/-- C1: a record of the table appears in the filtered subset iff its genre
is one of the selected genres, its rating one of the selected ratings, and
its year lies in the inclusive range [lo, hi]; in particular an empty genre
or rating selection yields an empty subset. -/
theorem filtered_df_mem_iff (T : List Record) (genres ratings : List String)
    (lo hi : Int) :
    (∀ r, r ∈ filtered_df T genres ratings lo hi ↔
      r ∈ T ∧ (∃ g, r.genre = some g ∧ g ∈ genres) ∧
        (∃ a, r.rating = some a ∧ a ∈ ratings) ∧
        (∃ y, r.year = some y ∧ lo ≤ y ∧ y ≤ hi)) ∧
    filtered_df T [] ratings lo hi = [] ∧
    filtered_df T genres [] lo hi = [] := by
  refine ⟨?_, ?_, ?_⟩
  · intro r
    unfold filtered_df
    rw [List.mem_filter]
    simp only [Bool.and_eq_true, isin_iff, between_iff]
    tauto
  · unfold filtered_df
    apply List.filter_eq_nil_iff.mpr
    intro r _
    simp [isin_nil]
  · unfold filtered_df
    apply List.filter_eq_nil_iff.mpr
    intro r _
    simp [isin_nil]

/-- C2: every record of clean(rawTable, threshold) has an integer release
year at or above the threshold and no missing value in any of its fields
(year, genre, rating, platform, critic score, user score). -/
theorem clean_data_no_missing (t : List Record) (th : Int) (r : Record)
    (h : r ∈ clean_data t th) :
    (∃ y, r.year = some y ∧ th ≤ y) ∧ (∃ g, r.genre = some g) ∧
    (∃ a, r.rating = some a) ∧ (∃ p, r.platform = some p) ∧
    (∃ c, r.criticScore = some c) ∧ (∃ u, r.userScore = UserScore.val u) :=
  clean_data_fields h

/-- C2 witness: the guarantees hold for the row of a concrete cleaned
one-row table with threshold 2000. -/
theorem clean_data_no_missing_witness :
    (∃ y, sampleRecord.year = some y ∧ (2000 : Int) ≤ y) ∧
    (∃ g, sampleRecord.genre = some g) ∧
    (∃ a, sampleRecord.rating = some a) ∧
    (∃ p, sampleRecord.platform = some p) ∧
    (∃ c, sampleRecord.criticScore = some c) ∧
    (∃ u, sampleRecord.userScore = UserScore.val u) :=
  clean_data_no_missing [sampleRecord] 2000 sampleRecord (by decide)

/-- C3: the displayed game count of a filtered subset is its length. -/
theorem game_count_eq_length (s : List Record) : game_count s = s.length :=
  rfl

/-- C4: the per-group counts of groupByYearPlatform sum to the game count
of the filtered subset; the empty subset yields an empty series and
count 0. -/
theorem grouped_df_sum_eq_game_count (t : List Record) (th : Int)
    (genres ratings : List String) (lo hi : Int) :
    ((grouped_df (filtered_df (clean_data t th) genres ratings lo hi)).map
        (fun g => g.2)).sum =
      game_count (filtered_df (clean_data t th) genres ratings lo hi) ∧
    grouped_df [] = [] ∧ game_count [] = 0 := by
  refine ⟨?_, rfl, rfl⟩
  rw [grouped_df_counts_sum]
  apply length_groupKeys
  intro r hr
  have hrc : r ∈ clean_data t th := (List.mem_filter.mp hr).1
  rcases clean_data_fields hrc with ⟨⟨y, hy, -⟩, -, -, ⟨p, hp⟩, -, -⟩
  have hkey : keyOf? r = some (y, p) := by
    unfold keyOf?
    rw [hy, hp]
  rw [hkey]
  rfl

/-- C5: filtering is monotone in the selection — enlarging the genre set,
the rating set and the year range only enlarges the filtered subset. -/
theorem filtered_df_mono (T : List Record) (g1 g2 r1 r2 : List String)
    (lo1 hi1 lo2 hi2 : Int) (hg : ∀ x ∈ g1, x ∈ g2) (hr : ∀ x ∈ r1, x ∈ r2)
    (hlo : lo2 ≤ lo1) (hhi : hi1 ≤ hi2) (q : Record)
    (hmem : q ∈ filtered_df T g1 r1 lo1 hi1) :
    q ∈ filtered_df T g2 r2 lo2 hi2 := by
  unfold filtered_df at hmem ⊢
  rw [List.mem_filter] at hmem ⊢
  obtain ⟨hT, hp⟩ := hmem
  simp only [Bool.and_eq_true, isin_iff, between_iff] at hp
  obtain ⟨⟨⟨g, hg1, hg2m⟩, ⟨a, ha1, ha2⟩⟩, ⟨y, hy1, hy2, hy3⟩⟩ := hp
  refine ⟨hT, ?_⟩
  simp only [Bool.and_eq_true, isin_iff, between_iff]
  exact ⟨⟨⟨g, hg1, hg g hg2m⟩, ⟨a, ha1, hr a ha2⟩⟩,
    ⟨y, hy1, le_trans hlo hy2, le_trans hy3 hhi⟩⟩

/-- C5 witness at a concrete table and a concrete pair of nested
selections. -/
theorem filtered_df_mono_witness :
    sampleRecord ∈
      filtered_df [sampleRecord] ["Action", "RPG"] ["E", "M"] 2000 2016 :=
  filtered_df_mono [sampleRecord] ["Action"] ["Action", "RPG"] ["E"]
    ["E", "M"] 2001 2010 2000 2016 (by decide) (by decide) (by decide)
    (by decide) sampleRecord (by decide)

/-- C6: cleaning is idempotent — re-cleaning a cleaned table with the same
threshold returns it unchanged. -/
theorem clean_data_idem (t : List Record) (th : Int) :
    clean_data (clean_data t th) th = clean_data t th := by
  show (((clean_data t th).filter (yearPass th)).map
      (fun r => { r with userScore := replaceTbd r.userScore })).filter
      (fun r => !hasNA r) = clean_data t th
  rw [List.filter_eq_self.mpr (fun r hr => (mem_clean_data hr).1)]
  have h2 : ∀ r ∈ clean_data t th,
      ({ r with userScore := replaceTbd r.userScore } : Record) = id r := by
    intro r hr
    show ({ r with userScore := replaceTbd r.userScore } : Record) = r
    rw [(mem_clean_data hr).2.2]
  rw [List.map_congr_left h2, List.map_id]
  exact List.filter_eq_self.mpr
    (fun r hr => by simp [(mem_clean_data hr).2.1])

def recWii : Record :=
  ⟨some 2005, some "Action", some "E", some "Wii", some 80, UserScore.val 8⟩

def recDS : Record :=
  ⟨some 2005, some "Action", some "E", some "DS", some 70, UserScore.val 7⟩

/-- C7 counterexample: in the filtered subset [recWii, recDS] the platform
"Wii" is encountered before "DS", yet the grouped output lists the
(2005, "DS") group first — pandas sorts equal-year groups by platform
value, not by first-seen order. -/
theorem grouped_df_not_first_seen :
    filtered_df (clean_data [recWii, recDS] 2000) ["Action"] ["E"]
        2000 2016 = [recWii, recDS] ∧
    grouped_df [recWii, recDS] =
      [((2005, "DS"), 1), ((2005, "Wii"), 1)] ∧
    grouped_df [recWii, recDS] ≠
      [((2005, "Wii"), 1), ((2005, "DS"), 1)] :=
  ⟨by decide, by decide, by decide⟩

/-- C7 (amended): the grouped output is ordered by ascending year and,
within one year, by ascending platform string (code-point lexicographic
order), each (year, platform) key appearing exactly once. -/
theorem grouped_df_sorted (s : List Record) :
    List.Pairwise (fun a b => KeyLE a.1 b.1) (grouped_df s) ∧
    ((grouped_df s).map Prod.fst).Nodup := by
  constructor
  · unfold grouped_df
    exact (List.sorted_insertionSort KeyLE _).map _ (fun a b h => h)
  · unfold grouped_df
    rw [List.map_map]
    have hcomp :
        (Prod.fst ∘ fun k => (k, (groupKeys s).count k)) =
          @id (Int × String) := rfl
    rw [hcomp, List.map_id]
    exact (List.perm_insertionSort KeyLE _).symm.nodup
      (List.nodup_dedup _)

/-- C8: a year range with lo > hi filters out every record; the result is
the empty list (the embedding is a total function, so no failure can be
raised). -/
theorem filtered_df_empty_of_lo_gt_hi (T : List Record)
    (genres ratings : List String) (lo hi : Int) (h : hi < lo) :
    filtered_df T genres ratings lo hi = [] := by
  unfold filtered_df
  apply List.filter_eq_nil_iff.mpr
  intro r _
  simp only [Bool.and_eq_true, isin_iff, between_iff]
  rintro ⟨-, y, -, hy1, hy2⟩
  exact absurd (le_trans hy1 hy2) (not_le.mpr h)

/-- C8 witness: the inverted range [2010, 2005] on a concrete table. -/
theorem filtered_df_empty_of_lo_gt_hi_witness :
    (2005 : Int) < 2010 ∧
      filtered_df [sampleRecord] ["Action"] ["E"] 2010 2005 = [] :=
  ⟨by decide,
    filtered_df_empty_of_lo_gt_hi [sampleRecord] ["Action"] ["E"] 2010 2005
      (by decide)⟩

/-- C9: a selection whose genre values (or whose rating values) are all
absent from the table yields the empty subset; the embedding is a total
function, so no failure can be raised. -/
theorem filtered_df_empty_of_absent_values (T : List Record)
    (genres ratings : List String) (lo hi : Int)
    (h : (∀ g ∈ genres, ∀ r ∈ T, r.genre ≠ some g) ∨
      (∀ a ∈ ratings, ∀ r ∈ T, r.rating ≠ some a)) :
    filtered_df T genres ratings lo hi = [] := by
  unfold filtered_df
  apply List.filter_eq_nil_iff.mpr
  intro r hr
  simp only [Bool.and_eq_true, isin_iff, between_iff]
  rintro ⟨⟨⟨g, hg, hgmem⟩, ⟨a, ha, hamem⟩⟩, -⟩
  rcases h with h | h
  · exact h g hgmem r hr hg
  · exact h a hamem r hr ha

/-- C9 witness: the genre "Karate" occurs nowhere in the concrete table. -/
theorem filtered_df_empty_of_absent_values_witness :
    filtered_df [sampleRecord] ["Karate"] ["E"] 2000 2016 = [] :=
  filtered_df_empty_of_absent_values [sampleRecord] ["Karate"] ["E"]
    2000 2016 (Or.inl (by decide))

/-- C10: every (year, platform) group emitted by groupByYearPlatform has a
count of at least 1 and is witnessed by a record of the subset with exactly
that year and platform. -/
theorem grouped_df_groups_inhabited (s : List Record) (k : Int × String)
    (c : Nat) (h : (k, c) ∈ grouped_df s) :
    1 ≤ c ∧ ∃ r ∈ s, r.year = some k.1 ∧ r.platform = some k.2 := by
  obtain ⟨hk, hc⟩ := mem_grouped_df h
  constructor
  · rw [hc]
    exact List.count_pos_iff.mpr hk
  · rcases List.mem_filterMap.mp hk with ⟨r, hr, hkey⟩
    rcases keyOf?_eq_some hkey with ⟨hy, hp⟩
    exact ⟨r, hr, hy, hp⟩

/-- C10 witness: the single group of a concrete one-row subset. -/
theorem grouped_df_groups_inhabited_witness :
    1 ≤ 1 ∧ ∃ r ∈ [sampleRecord],
      r.year = some (((2005 : Int), "PS2")).1 ∧
      r.platform = some (((2005 : Int), "PS2")).2 :=
  grouped_df_groups_inhabited [sampleRecord] ((2005 : Int), "PS2") 1
    (by decide)

end GamesDashboard
